import Mathlib

/-!
Verification of the GarageDoor433 signal recorder (lora32 firmware).

Shallow embedding of `signal_recorder.py` and the command dispatch of
`main.py`.  Pure Python functions become Lean functions; machine integers
are modelled as `Int`/`Nat` (Python integers are unbounded); the MicroPython
microsecond tick counter is modelled as a wrapping `Nat` with the standard
`ticks_diff` modular subtraction (period 2^30).  Python float arithmetic on
means and thresholds (`sum(..)/len(..)`, `* 0.7`, `* 5`, `* 3`, the
2.5/3.5 ratio window) is modelled as exact rational arithmetic over `ℚ`;
for the integer duration magnitudes handled here (< 2^30 µs) the two agree
except on measure-zero rounding boundaries of IEEE doubles.
-/

namespace GarageDoor

/-! ### Constants from signal_recorder.py -/

def MIN_PULSE_US : Int := 100
def MAX_GAP_US : Int := 20000
def MAX_PULSES : Nat := 500
def MAX_SLOTS : Int := 5
def REPLAY_REPEATS : Nat := 8

/-- MicroPython tick counters wrap with period 2^30. -/
def TICKS_PERIOD : Int := 2 ^ 30

/-- Wraparound-safe difference of two hardware timestamps, as computed by
MicroPython `time.ticks_diff(a, b)`: the representative of `a - b`
modulo `TICKS_PERIOD` lying in `[-TICKS_PERIOD/2, TICKS_PERIOD/2)`. -/
def ticks_diff (a b : Nat) : Int :=
  let d := ((a : Int) - (b : Int)) % TICKS_PERIOD
  if d < TICKS_PERIOD / 2 then d else d - TICKS_PERIOD

/-- Step 1 of `_process_edges`: intervals between consecutive edge
timestamps, `ticks_diff(raw[i], raw[i-1])` for `i = 1 .. len-1`. -/
def intervalsOf : List Nat → List Int
  | a :: b :: rest => ticks_diff b a :: intervalsOf (b :: rest)
  | _ => []

/-- Step 2 of `_process_edges`: merge glitch clusters (intervals below the
250 µs `MERGE_THRESH`) back into real intervals using the parity of the
cluster size.  The two extra arguments are the running accumulator `acc`
and glitch counter `gc` of the Python loop. -/
def mergeGlitches : List Int → Int → Nat → List Int
  | [], acc, gc =>
    -- trailing accumulator: `if gc > 0 and gc % 2 == 1 and acc >= MIN_PULSE_US`
    if 0 < gc ∧ gc % 2 = 1 ∧ MIN_PULSE_US ≤ acc then [acc] else []
  | interval :: rest, acc, gc =>
    if interval < 250 then
      mergeGlitches rest (acc + interval) (gc + 1)
    else
      (if gc = 0 then [interval]
       else if gc % 2 = 1 then
         (if MIN_PULSE_US ≤ acc then [acc, interval] else [interval])
       else [acc + interval]) ++ mergeGlitches rest 0 0

/-- Step 3 of `_process_edges`: index right after the first interval
exceeding `MAX_GAP_US // 2`; `0` when no such interval exists. -/
def anchorStart (clean : List Int) : Nat :=
  match clean.findIdx? (fun x => decide (MAX_GAP_US / 2 < x)) with
  | some i => i + 1
  | none => 0

/-- Step 4 of `_process_edges`: pair consecutive intervals as
`(high, low)`, keeping a pair only when the high meets `MIN_PULSE_US`;
a trailing unpaired interval is discarded (`while i + 1 < len`). -/
def pairPulses : List Int → List (Int × Int)
  | h :: l :: rest => (if MIN_PULSE_US ≤ h then [(h, l)] else []) ++ pairPulses rest
  | _ => []

/-- `SignalRecorder._process_edges`: reconstruct `(high_us, low_us)` pulse
pairs from the raw edge timestamps. -/
def process_edges (raw : List Nat) : List (Int × Int) :=
  if raw.length < 4 then []
  else
    let clean := mergeGlitches (intervalsOf raw) 0 0
    pairPulses (clean.drop (anchorStart clean))

/-- `SignalRecorder.has_signal`: `len(self.pulses) >= 4`. -/
def has_signal (pulses : List (Int × Int)) : Bool :=
  decide (4 ≤ pulses.length)

/-- `SignalRecorder._irq_handler`: append the current timestamp when the
edge buffer holds fewer than `MAX_PULSES * 2` entries, else drop it. -/
def irq_handler (edges : List Nat) (now : Nat) : List Nat :=
  if edges.length < MAX_PULSES * 2 then edges ++ [now] else edges

/-! ### Protocol classifier (`SignalRecorder.detect_protocol`) -/

/-- Python `max` over a nonempty list of integers (`0` on `[]`, a case the
source never reaches because it guards on emptiness first). -/
def maxOf : List Int → Int
  | [] => 0
  | x :: xs => xs.foldl max x

/-- The frame-length counting loop of `detect_protocol`: walk the whole
pulse list, counting; stop after the first pulse whose low duration
exceeds `max_low * 0.7`.  The float comparison `low > max_low * 0.7`
is modelled exactly as `10 * low > 7 * max_low`. -/
def framePulseCount : List (Int × Int) → Int → Nat
  | [], _ => 0
  | p :: rest, maxLow =>
    if 7 * maxLow < 10 * p.2 then 1 else 1 + framePulseCount rest maxLow

/-- `SignalRecorder.detect_protocol`, translated line by line.  Population
means and the ratio window use exact rational arithmetic for the Python
float expressions. -/
def detect_protocol (pulses : List (Int × Int)) : String :=
  if pulses = [] ∨ pulses.length < 4 then "unknown"
  else
    let w := pulses.take 50
    let short_pulses := (w.map Prod.fst).filter (fun h => decide (0 < h) && decide (h < 600))
    let long_pulses := (w.map Prod.fst).filter (fun h => decide (0 < h) && !decide (h < 600))
    if short_pulses ≠ [] ∧ long_pulses ≠ [] then
      let avg_short : ℚ := (short_pulses.sum : ℚ) / short_pulses.length
      let avg_long : ℚ := (long_pulses.sum : ℚ) / long_pulses.length
      if 0 < avg_short then
        if 5/2 < avg_long / avg_short ∧ avg_long / avg_short < 7/2 then
          let lows := (w.map Prod.snd).filter (fun l => decide (0 < l))
          if lows ≠ [] then
            let max_low := maxOf lows
            let avg_low : ℚ := (lows.sum : ℚ) / lows.length
            if avg_low * 5 < (max_low : ℚ) then
              let frame_pulses := framePulseCount pulses max_low
              if 11 ≤ frame_pulses ∧ frame_pulses ≤ 14 then "PT2262"
              else if 19 ≤ frame_pulses ∧ frame_pulses ≤ 22 then "EV1527"
              else "PT2262/EV1527"
            else "PT2262/EV1527"
          else "PT2262/EV1527"
        else "unknown"
      else "unknown"
    else "unknown"

/-! ### The decision procedure as the specification words it (claim C2) -/

/-- Frame length as the spec words it: the number of pulses from the start
up to and including the first low duration exceeding 70 percent of
`maxLow` (the prefix of non-exceeding pulses plus the pulse that ends it);
the whole list when no low qualifies. -/
def specFrameLen (pulses : List (Int × Int)) (maxLow : Int) : Nat :=
  let pre := pulses.takeWhile (fun p => decide (10 * p.2 ≤ 7 * maxLow))
  if pre.length = pulses.length then pulses.length else pre.length + 1

/-- The classification procedure exactly as the claim states it: the high
durations of the first-50 window partitioned at 600 µs, `unknown` on an
empty population or a mean ratio outside (2.5, 3.5), the generic tag when
the maximum low of the window is not at least 5 times the mean low, and
otherwise the frame-length count mapped to the named tags. -/
def specClassify (pulses : List (Int × Int)) : String :=
  let w := pulses.take 50
  let pr := (w.map Prod.fst).partition (fun h => decide (h < 600))
  if pr.1 = [] ∨ pr.2 = [] then "unknown"
  else
    let ratio : ℚ := ((pr.2.sum : ℚ) / pr.2.length) / ((pr.1.sum : ℚ) / pr.1.length)
    if 5/2 < ratio ∧ ratio < 7/2 then
      let lows := w.map Prod.snd
      let mx := maxOf lows
      let mean : ℚ := (lows.sum : ℚ) / lows.length
      if 5 * mean ≤ (mx : ℚ) then
        let n := specFrameLen pulses mx
        if 11 ≤ n ∧ n ≤ 14 then "PT2262"
        else if 19 ≤ n ∧ n ≤ 22 then "EV1527"
        else "PT2262/EV1527"
      else "PT2262/EV1527"
    else "unknown"

/-- The amended procedure: same as `specClassify` but with the under-4
guard of the source and a strict greater-than on the 5-times sync-gap
test, stated for pulse trains of positive durations (so the population and
low filters of the source are vacuous). -/
def specClassifyAmended (pulses : List (Int × Int)) : String :=
  if pulses.length < 4 then "unknown"
  else
    let w := pulses.take 50
    let pr := (w.map Prod.fst).partition (fun h => decide (h < 600))
    if pr.1 = [] ∨ pr.2 = [] then "unknown"
    else
      let ratio : ℚ := ((pr.2.sum : ℚ) / pr.2.length) / ((pr.1.sum : ℚ) / pr.1.length)
      if 5/2 < ratio ∧ ratio < 7/2 then
        let lows := w.map Prod.snd
        let mx := maxOf lows
        let mean : ℚ := (lows.sum : ℚ) / lows.length
        if 5 * mean < (mx : ℚ) then
          let n := specFrameLen pulses mx
          if 11 ≤ n ∧ n ≤ 14 then "PT2262"
          else if 19 ≤ n ∧ n ≤ 22 then "EV1527"
          else "PT2262/EV1527"
        else "PT2262/EV1527"
      else "unknown"

/-! ### Frame extractor (`SignalRecorder.extract_single_frame`) -/

/-- The list comprehension `[(low, i) for i, (_, low) in enumerate(pulses)
if low > 0]`. -/
def lowsEnum (pulses : List (Int × Int)) : List (Int × Nat) :=
  pulses.enum.filterMap (fun ip => if 0 < ip.2.2 then some (ip.2.2, ip.1) else none)

/-- The order used by `lows.sort(reverse=True)`: descending lexicographic
order on `(low, index)` pairs. -/
def descLe (a b : Int × Nat) : Prop :=
  b.1 < a.1 ∨ (b.1 = a.1 ∧ b.2 ≤ a.2)

instance : DecidableRel descLe := fun a b => by
  unfold descLe; infer_instance

instance : IsTotal (Int × Nat) descLe where
  total a b := by
    obtain ⟨x, i⟩ := a
    obtain ⟨y, j⟩ := b
    simp only [descLe]
    omega

instance : IsTrans (Int × Nat) descLe where
  trans a b c hab hbc := by
    obtain ⟨x, i⟩ := a
    obtain ⟨y, j⟩ := b
    obtain ⟨z, k⟩ := c
    simp only [descLe] at hab hbc ⊢
    omega

/-- `SignalRecorder.extract_single_frame`, translated line by line.  The
Python `lows.sort(reverse=True)` and the final `sync_indices.sort()` are
modelled with insertion sort (the keys are pairwise distinct, so any
correct sort produces the same list).  The float expressions
`sum(..) / len(..)` and `avg_low * 3` are modelled over `ℚ`. -/
def extract_single_frame (pulses : List (Int × Int)) : List (Int × Int) :=
  if pulses = [] ∨ pulses.length < 4 then pulses
  else
    let lows := List.insertionSort descLe (lowsEnum pulses)
    if lows = [] then pulses
    else
      let avg_low : ℚ := ((lows.map Prod.fst).sum : ℚ) / lows.length
      let sync := List.insertionSort (· ≤ ·)
        (lows.filterMap (fun li => if avg_low * 3 < (li.1 : ℚ) then some li.2 else none))
      match sync with
      | s0 :: s1 :: _ => (pulses.drop (s0 + 1)).take (s1 + 1 - (s0 + 1))
      | [s0] => pulses.take (s0 + 1)
      | [] => pulses

/-- The frame extraction procedure exactly as the claim states it: return
the input when it has fewer than 4 pulses or no (positive) low duration;
otherwise take the mean of the low durations present, call a position a
sync index when its low duration exceeds 3 times that mean, and slice
according to the number of sync indices. -/
def spec_extract_frame (pulses : List (Int × Int)) : List (Int × Int) :=
  if pulses.length < 4 then pulses
  else
    let lowvals := (pulses.map Prod.snd).filter (fun l => decide (0 < l))
    if lowvals = [] then pulses
    else
      let mean : ℚ := (lowvals.sum : ℚ) / lowvals.length
      let sync := pulses.enum.filterMap
        (fun ip => if 3 * mean < (ip.2.2 : ℚ) then some ip.1 else none)
      match sync with
      | s0 :: s1 :: _ => (pulses.drop (s0 + 1)).take (s1 - s0)
      | [s0] => pulses.take (s0 + 1)
      | [] => pulses

/-! ### Persistence (`save_signal` / `load_signal`)

The slot files are modelled by their parsed content: a `Json` value for a
file whose bytes parse as JSON, `garbage` for unreadable or unparseable
bytes (where `json.load` raises `ValueError`), and `missing` for an absent
file (where `open` raises `OSError`).  The Python exceptions that
`load_signal` can raise or catch are modelled with `Except`. -/

inductive Json
  | null
  | bool (b : Bool)
  | num (n : Int)
  | str (s : String)
  | arr (xs : List Json)
  | obj (kvs : List (String × Json))

/-- The Python exception classes relevant to `load_signal`. -/
inductive PyErr
  | osError
  | valueError
  | keyError
  | typeError
deriving DecidableEq

/-- Content of one slot file. -/
inductive FileContent
  | missing
  | garbage
  | json (j : Json)

/-- Python subscript `data["pulses"]` on a decoded JSON value: a dict
lookup raising `KeyError` on a missing key and `TypeError` when the value
is not a dict (list and string subscripts need integer indices; numbers
are not subscriptable). -/
def pyGetItem (j : Json) (key : String) : Except PyErr Json :=
  match j with
  | .obj kvs =>
    match kvs.lookup key with
    | some v => .ok v
    | none => .error .keyError
  | _ => .error .typeError

/-- Python iteration over a decoded JSON value: lists yield elements,
strings yield one-character strings, dicts yield their keys, everything
else raises `TypeError`. -/
def pyToIter (j : Json) : Except PyErr (List Json) :=
  match j with
  | .arr xs => .ok xs
  | .str s => .ok (s.toList.map (fun c => Json.str (String.singleton c)))
  | .obj kvs => .ok (kvs.map (fun kv => Json.str kv.1))
  | _ => .error .typeError

/-- Python tuple unpacking `h, l = e`: iterate `e` and require exactly two
items (`TypeError` when not iterable, `ValueError` otherwise). -/
def pyUnpack2 (e : Json) : Except PyErr (Json × Json) :=
  match pyToIter e with
  | .error err => .error err
  | .ok [x, y] => .ok (x, y)
  | .ok _ => .error .valueError

/-- The comprehension `[(h, l) for h, l in elems]`. -/
def pyUnpackAll : List Json → Except PyErr (List (Json × Json))
  | [] => .ok []
  | e :: rest => do
    let p ← pyUnpack2 e
    let ps ← pyUnpackAll rest
    .ok (p :: ps)

/-- Python `data.get("name", "signal")`; only reached when `data` is a
dict. -/
def pyDictGet (j : Json) (key : String) (dflt : Json) : Json :=
  match j with
  | .obj kvs => (kvs.lookup key).getD dflt
  | _ => dflt

/-- The body of the `try` block of `load_signal`: open and parse the file,
take `data["pulses"]`, unpack its items into pairs, and return
`(data.get("name", "signal"), pulses)`.  Any step may raise. -/
def loadBody (c : FileContent) : Except PyErr (Json × List (Json × Json)) :=
  match c with
  | .missing => .error .osError
  | .garbage => .error .valueError
  | .json j => do
    let pv ← pyGetItem j "pulses"
    let elems ← pyToIter pv
    let pairs ← pyUnpackAll elems
    .ok (pyDictGet j "name" (.str "signal"), pairs)

/-- `SignalRecorder.load_signal`: the body above with
`except (OSError, ValueError, KeyError): return None`.  A `TypeError`
escapes the handler. -/
def load_signal (c : FileContent) : Except PyErr (Option (Json × List (Json × Json))) :=
  match loadBody c with
  | .ok v => .ok (some v)
  | .error .osError => .ok none
  | .error .valueError => .ok none
  | .error .keyError => .ok none
  | .error e => .error e

/-- The record dict `save_signal` serialises:
`{"name": name, "pulses": frame, "protocol": ..., "pulse_count": ...}`
with the extracted single frame encoded as a JSON array of two-element
arrays. -/
def slotRecord (name : String) (pulses : List (Int × Int)) : Json :=
  let frame := extract_single_frame pulses
  .obj [("name", .str name),
        ("pulses", .arr (frame.map (fun p => .arr [.num p.1, .num p.2]))),
        ("protocol", .str (detect_protocol pulses)),
        ("pulse_count", .num frame.length)]

/-- `SignalRecorder.save_signal`: returns the Python result and the file
content written (`none` when nothing is written). -/
def save_signal (pulses : List (Int × Int)) (slot : Int) (name : String) :
    Bool × Option Json :=
  if slot < 1 ∨ MAX_SLOTS < slot then (false, none)
  else if pulses = [] then (false, none)
  else (true, some (slotRecord name pulses))

/-! ### Replay engine (`SignalRecorder.replay`)

The side effects of `replay` are modelled as an event trace: radio mode
switches, writes to the DIO2 output line, sleeps, and progress-callback
invocations, in program order.  The `self.replaying` flag (plain attribute
bookkeeping) is not traced. -/

inductive Ev
  | startTx
  | stopRadio
  | pin (v : Int)
  | sleepUs (n : Int)
  | sleepMs (n : Nat)
  | progress (cur tot : Nat)
deriving DecidableEq

/-- `SignalRecorder._replay_frame`: drive the line high then low for each
pulse, sleeping only for positive low durations. -/
def replay_frame (pulses : List (Int × Int)) : List Ev :=
  pulses.flatMap (fun p =>
    [Ev.pin 1, Ev.sleepUs p.1, Ev.pin 0] ++
    (if 0 < p.2 then [Ev.sleepUs p.2] else []))

/-- One iteration of the repeat loop of `replay`: optional progress
callback, one frame, then the inter-frame gap. -/
def replayRep (pulses : List (Int × Int)) (repeats : Nat) (hasCb : Bool)
    (rep : Nat) : List Ev :=
  (if hasCb then [Ev.progress (rep + 1) repeats] else []) ++
  replay_frame pulses ++ [Ev.pin 0, Ev.sleepMs 10]

/-- `SignalRecorder.replay` with an explicit pulse list: the emitted event
trace and the returned boolean.  `hasCb` records whether a progress
callback was supplied. -/
def replay (pulses : List (Int × Int)) (repeats : Nat) (hasCb : Bool) :
    List Ev × Bool :=
  if pulses = [] then ([], false)
  else
    ([Ev.startTx, Ev.sleepMs 10, Ev.pin 0] ++
      (List.range repeats).flatMap (replayRep pulses repeats hasCb) ++
      [Ev.pin 0, Ev.stopRadio],
     true)

/-- Recogniser for progress events in a trace. -/
def isProgressEv : Ev → Bool
  | .progress _ _ => true
  | _ => false

/-- Recogniser for output-line writes in a trace. -/
def isPinEv : Ev → Bool
  | .pin _ => true
  | _ => false

/-! ### Application command handler (`main.py`, `App._process_request`)

The handler is modelled as a pure step function on an application state.
Collaborators excluded by the spec (display, LED, BLE transport) are not
modelled; the JSON response sent over BLE is modelled by a `Resp` value.
The recorder attributes the handler touches are the captured edge buffer,
the processed pulses and the slot files.  A `play` request runs the replay
engine to completion between the two state assignments, so the post-state
of the step carries the final `STATE_IDLE`; the pulse list handed to
`recorder.replay` is recorded in the step result.  (Radio, irq arming and
capture timestamps of `start_recording` are hardware effects outside the
model.)  Only the `record`, `stop` and `play` actions, the ones claims C8
and C10 are about, are modelled. -/

def STATE_IDLE : Nat := 0
def STATE_RECORDING : Nat := 1
def STATE_CAPTURED : Nat := 2
def STATE_REPLAYING : Nat := 3

structure RecorderModel where
  edges : List Nat
  pulses : List (Int × Int)
  store : Int → FileContent

structure AppModel where
  state : Nat
  last_slot : Int
  recorder : RecorderModel

/-- A parsed JSON API request (`req.get("slot")` may be absent). -/
inductive Req
  | record
  | stop
  | play (slot : Option Int)

/-- The JSON response `_process_request` sends for these actions. -/
inductive Resp
  | ok (action : String)
  | okStop (pulse_count : Nat) (protocol : String)
  | okPlay (slot : Int)
  | err (action message : String)

structure StepResult where
  app : AppModel
  resp : Resp
  replayed : Option (List (Json × Json))

/-- `App._process_request` for the `record`, `stop` and `play` actions.
An uncaught Python exception (possible on `play` via `load_signal`)
is surfaced as `Except.error`. -/
def process_request (a : AppModel) (req : Req) : Except PyErr StepResult :=
  match req with
  | .record =>
    if a.state = STATE_IDLE ∨ a.state = STATE_CAPTURED then
      let r := { a.recorder with pulses := ([] : List (Int × Int)), edges := ([] : List Nat) }
      .ok ⟨{ a with state := STATE_RECORDING, recorder := r }, .ok "record", none⟩
    else
      .ok ⟨a, .err "record" "Busy", none⟩
  | .stop =>
    if a.state = STATE_RECORDING then
      let ps := process_edges a.recorder.edges
      let r := { a.recorder with pulses := ps }
      if has_signal ps then
        .ok ⟨{ a with state := STATE_CAPTURED, recorder := r }, .okStop ps.length (detect_protocol ps), none⟩
      else
        .ok ⟨{ a with state := STATE_IDLE, recorder := r }, .err "stop" "No signal detected", none⟩
    else
      .ok ⟨a, .err "stop" "Not recording", none⟩
  | .play slotOpt =>
    match slotOpt with
    | none => .ok ⟨a, .err "play" "Missing slot", none⟩
    | some slot =>
      match load_signal (a.recorder.store slot) with
      | .error e => .error e
      | .ok none => .ok ⟨a, .err "play" "Slot empty", none⟩
      | .ok (some nps) =>
        .ok ⟨{ a with state := STATE_IDLE, last_slot := slot }, .okPlay slot, some nps.2⟩

/-! ## Theorems -/

/-! ### Claim C9: edge capture buffer capacity -/

theorem foldl_irq_handler (ts : List Nat) : ∀ es : List Nat,
    List.foldl irq_handler es ts = es ++ ts.take (MAX_PULSES * 2 - es.length) := by
  induction ts with
  | nil => intro es; simp
  | cons t rest ih =>
    intro es
    by_cases h : es.length < MAX_PULSES * 2
    · rw [List.foldl_cons, irq_handler, if_pos h, ih]
      have h2 : MAX_PULSES * 2 - es.length = (MAX_PULSES * 2 - (es ++ [t]).length) + 1 := by
        simp only [List.length_append, List.length_singleton]
        omega
      rw [h2, List.take_succ_cons]
      simp
    · rw [List.foldl_cons, irq_handler, if_neg h, ih]
      have h2 : MAX_PULSES * 2 - es.length = 0 := by omega
      rw [h2]
      simp

/-- C9: feeding any sequence of edge interrupts into an initially empty
capture buffer retains exactly the earliest `min n 1000` timestamps, in
order and unmodified; every edge beyond the `2 * MAX_PULSES = 1000`
capacity is dropped silently. -/
theorem c9_edge_capture_capacity (ts : List Nat) :
    List.foldl irq_handler [] ts = ts.take (MAX_PULSES * 2) ∧
    (List.foldl irq_handler [] ts).length = min ts.length (MAX_PULSES * 2) := by
  have h := foldl_irq_handler ts []
  simp only [List.length_nil, Nat.sub_zero, List.nil_append] at h
  refine ⟨h, ?_⟩
  rw [h, List.length_take, Nat.min_comm]

/-! ### Claim C6: short captures fail closed -/

/-- C6: fewer than 4 edges reconstruct to an empty pulse list, and
`has_signal` is then false. -/
theorem c6_short_capture_fails_closed (raw : List Nat) (h : raw.length < 4) :
    process_edges raw = [] ∧ has_signal (process_edges raw) = false := by
  have hp : process_edges raw = [] := by
    rw [process_edges, if_pos h]
  exact ⟨hp, by rw [hp]; rfl⟩

theorem c6_short_capture_fails_closed_witness :
    ([10, 20, 30] : List Nat).length < 4 ∧
    (process_edges [10, 20, 30] = [] ∧
      has_signal (process_edges [10, 20, 30]) = false) :=
  ⟨by decide, c6_short_capture_fails_closed [10, 20, 30] (by decide)⟩

/-! ### Claim C1: glitch-merge parity law -/

theorem length_intervalsOf (raw : List Nat) :
    (intervalsOf raw).length = raw.length - 1 := by
  induction raw with
  | nil => rfl
  | cons a t ih =>
    cases t with
    | nil => rfl
    | cons b rest =>
      rw [intervalsOf, List.length_cons, ih]
      simp only [List.length_cons]
      omega

/-- C1: every edge-timestamp sequence whose wraparound-safe consecutive
differences are `[1000, 100, 100, 1000]` µs reconstructs to exactly
`[(1000, 1200)]`: the even glitch pair (100 + 100 µs) is merged into the
following real 1000 µs interval. -/
theorem c1_glitch_merge_parity (raw : List Nat)
    (h : intervalsOf raw = [1000, 100, 100, 1000]) :
    process_edges raw = [(1000, 1200)] := by
  have hlen : raw.length = 5 := by
    have h2 := length_intervalsOf raw
    rw [h] at h2
    simp only [List.length_cons, List.length_nil] at h2
    omega
  rw [process_edges, if_neg (by omega), h]
  decide

theorem c1_glitch_merge_parity_witness :
    intervalsOf [0, 1000, 1100, 1200, 2200] = [1000, 100, 100, 1000] ∧
    process_edges [0, 1000, 1100, 1200, 2200] = [(1000, 1200)] :=
  ⟨by decide, c1_glitch_merge_parity [0, 1000, 1100, 1200, 2200] (by decide)⟩

/-! ### Claim C7: load on corrupted persistence -/

/-- C7 (divergence witness): a slot file whose stored bytes are the valid
JSON text `[1, 2]` is a corrupted record, yet `load_signal` does not
return `None`: subscripting the decoded list with `data["pulses"]` raises
`TypeError`, which the `except (OSError, ValueError, KeyError)` handler
does not catch, so the exception escapes the call. -/
theorem c7_load_signal_raises_on_json_array :
    load_signal (FileContent.json (Json.arr [Json.num 1, Json.num 2])) =
      Except.error PyErr.typeError := rfl

/-! ### Claim C8: lifecycle error atomicity -/

/-- C8: a `stop` received while not `Recording` yields the not-applicable
error response and leaves the whole application state unchanged; a
`record` received while `Recording` or `Replaying` yields the `Busy`
error response and leaves the state unchanged. -/
theorem c8_lifecycle_error_atomicity (a : AppModel) :
    (a.state ≠ STATE_RECORDING →
      process_request a Req.stop =
        .ok ⟨a, .err "stop" "Not recording", none⟩) ∧
    (a.state = STATE_RECORDING ∨ a.state = STATE_REPLAYING →
      process_request a Req.record =
        .ok ⟨a, .err "record" "Busy", none⟩) := by
  constructor
  · intro h
    rw [process_request, if_neg h]
  · intro h
    have h2 : ¬(a.state = STATE_IDLE ∨ a.state = STATE_CAPTURED) := by
      simp only [STATE_IDLE, STATE_CAPTURED, STATE_RECORDING, STATE_REPLAYING] at h ⊢
      omega
    rw [process_request, if_neg h2]

theorem c8_lifecycle_error_atomicity_witness :
    ((⟨STATE_IDLE, 1, ⟨[], [], fun _ => FileContent.missing⟩⟩ : AppModel).state ≠
        STATE_RECORDING ∧
      process_request ⟨STATE_IDLE, 1, ⟨[], [], fun _ => FileContent.missing⟩⟩ Req.stop =
        .ok ⟨⟨STATE_IDLE, 1, ⟨[], [], fun _ => FileContent.missing⟩⟩,
             .err "stop" "Not recording", none⟩) ∧
    ((⟨STATE_RECORDING, 1, ⟨[], [], fun _ => FileContent.missing⟩⟩ : AppModel).state =
        STATE_RECORDING ∨
      (⟨STATE_RECORDING, 1, ⟨[], [], fun _ => FileContent.missing⟩⟩ : AppModel).state =
        STATE_REPLAYING) ∧
    process_request ⟨STATE_RECORDING, 1, ⟨[], [], fun _ => FileContent.missing⟩⟩ Req.record =
      .ok ⟨⟨STATE_RECORDING, 1, ⟨[], [], fun _ => FileContent.missing⟩⟩,
           .err "record" "Busy", none⟩ :=
  ⟨⟨by decide,
    (c8_lifecycle_error_atomicity ⟨STATE_IDLE, 1, ⟨[], [], fun _ => FileContent.missing⟩⟩).1
      (by decide)⟩,
   Or.inl rfl,
   (c8_lifecycle_error_atomicity ⟨STATE_RECORDING, 1, ⟨[], [], fun _ => FileContent.missing⟩⟩).2
     (Or.inl rfl)⟩

/-! ### Claim C10: play is accepted in every state -/

/-- C10: the handler runs `play` with no state guard: from any starting
state (`Recording` included), when `load_signal` succeeds the loaded
pulses are handed to the replay engine and the post-state is `Idle`. -/
theorem c10_play_accepted_in_every_state (a : AppModel) (slot : Int)
    (nm : Json) (pulses : List (Json × Json))
    (h : load_signal (a.recorder.store slot) = .ok (some (nm, pulses))) :
    process_request a (Req.play (some slot)) =
      .ok ⟨{ a with state := STATE_IDLE, last_slot := slot },
           .okPlay slot, some pulses⟩ := by
  rw [process_request, h]

/-- A stored slot file holding one valid record, for the C10 witness. -/
def demoStore : Int → FileContent := fun _ =>
  FileContent.json (Json.obj
    [("name", Json.str "door"),
     ("pulses", Json.arr [Json.arr [Json.num 500, Json.num 300]])])

theorem c10_play_accepted_in_every_state_witness :
    load_signal (((⟨STATE_RECORDING, 1, ⟨[], [], demoStore⟩⟩ : AppModel)).recorder.store 4) =
      .ok (some (Json.str "door", [(Json.num 500, Json.num 300)])) ∧
    process_request ⟨STATE_RECORDING, 1, ⟨[], [], demoStore⟩⟩ (Req.play (some 4)) =
      .ok ⟨{ (⟨STATE_RECORDING, 1, ⟨[], [], demoStore⟩⟩ : AppModel) with
               state := STATE_IDLE, last_slot := 4 },
           .okPlay 4, some [(Json.num 500, Json.num 300)]⟩ :=
  ⟨rfl,
   c10_play_accepted_in_every_state ⟨STATE_RECORDING, 1, ⟨[], [], demoStore⟩⟩ 4
     (Json.str "door") [(Json.num 500, Json.num 300)] rfl⟩

/-! ### Claim C4: save/load round trip -/

theorem pyUnpackAll_encoded (l : List (Int × Int)) :
    pyUnpackAll (l.map (fun p => Json.arr [Json.num p.1, Json.num p.2])) =
      .ok (l.map (fun p => (Json.num p.1, Json.num p.2))) := by
  induction l with
  | nil => rfl
  | cons p t ih =>
    simp only [List.map_cons, pyUnpackAll, pyUnpack2, pyToIter, ih]
    rfl

/-- C4: for every slot in `1 .. MAX_SLOTS` and every non-empty captured
signal, `save_signal` succeeds, writing the slot record, and
`load_signal` of that record returns exactly the saved name and the
integer `(high, low)` values of the persisted frame (the extracted single
frame at save time). -/
theorem c4_save_load_round_trip (slot : Int) (nm : String)
    (pulses : List (Int × Int)) (h1 : 1 ≤ slot) (h2 : slot ≤ MAX_SLOTS)
    (h3 : pulses ≠ []) :
    save_signal pulses slot nm = (true, some (slotRecord nm pulses)) ∧
    load_signal (.json (slotRecord nm pulses)) =
      .ok (some (.str nm,
        (extract_single_frame pulses).map (fun p => (Json.num p.1, Json.num p.2)))) := by
  constructor
  · rw [save_signal, if_neg (by omega), if_neg h3]
  · simp [load_signal, loadBody, slotRecord, pyGetItem, pyToIter, pyDictGet,
      List.lookup, pyUnpackAll_encoded, Bind.bind, Except.bind]

theorem c4_save_load_round_trip_witness :
    ((1 : Int) ≤ 1 ∧ (1 : Int) ≤ MAX_SLOTS ∧ ([(500, 600)] : List (Int × Int)) ≠ []) ∧
    (save_signal [(500, 600)] 1 "sig" = (true, some (slotRecord "sig" [(500, 600)])) ∧
      load_signal (.json (slotRecord "sig" [(500, 600)])) =
        .ok (some (.str "sig",
          (extract_single_frame [(500, 600)]).map
            (fun p => (Json.num p.1, Json.num p.2))))) :=
  ⟨⟨by decide, by decide, by decide⟩,
   c4_save_load_round_trip 1 "sig" [(500, 600)] (by decide) (by decide) (by decide)⟩

/-! ### Claim C5: replay contract -/

theorem filter_progress_replay_frame (pulses : List (Int × Int)) :
    (replay_frame pulses).filter isProgressEv = [] := by
  induction pulses with
  | nil => rfl
  | cons p t ih =>
    simp only [replay_frame, List.flatMap_cons, List.filter_append] at ih ⊢
    rw [ih]
    by_cases h : 0 < p.2 <;> simp [h, isProgressEv]

theorem filter_progress_flatMap (pulses : List (Int × Int)) (repeats : Nat)
    (l : List Nat) :
    ((l.flatMap (replayRep pulses repeats true)).filter isProgressEv) =
      l.map (fun r => Ev.progress (r + 1) repeats) := by
  induction l with
  | nil => rfl
  | cons r t ih =>
    simp only [List.flatMap_cons, List.filter_append, List.map_cons, ih]
    simp only [replayRep, List.filter_append, filter_progress_replay_frame]
    simp [isProgressEv]

/-- C5: replaying an empty pulse list returns `false` with no radio or
output-line activity; replaying a non-empty list with a progress callback
fires the callback once per repeat with `(rep, repeats)` for
`rep = 1 .. repeats`, returns `true`, and ends with the output line low
and the radio stopped; the default repeat count is `REPLAY_REPEATS = 8`. -/
theorem c5_replay_contract (pulses : List (Int × Int)) (repeats : Nat)
    (h : pulses ≠ []) :
    replay [] repeats true = ([], false) ∧
    (replay pulses repeats true).2 = true ∧
    ((replay pulses repeats true).1.filter isProgressEv) =
      (List.range repeats).map (fun r => Ev.progress (r + 1) repeats) ∧
    ((replay pulses repeats true).1.filter isPinEv).getLast? = some (Ev.pin 0) ∧
    (replay pulses repeats true).1.getLast? = some Ev.stopRadio ∧
    REPLAY_REPEATS = 8 := by
  refine ⟨rfl, ?_, ?_, ?_, ?_, rfl⟩
  · rw [replay, if_neg h]
  · rw [replay, if_neg h]
    simp only [List.filter_append, filter_progress_flatMap]
    simp [isProgressEv]
  · rw [replay, if_neg h]
    simp only [List.filter_append]
    have hpins : List.filter isPinEv [Ev.pin 0, Ev.stopRadio] = [Ev.pin 0] := rfl
    rw [hpins, List.getLast?_append_of_ne_nil _ (by simp)]
    rfl
  · rw [replay, if_neg h]
    rw [List.getLast?_append_of_ne_nil _ (by simp)]
    rfl

theorem c5_replay_contract_witness :
    ([((100 : Int), (200 : Int))] ≠ []) ∧
    (replay [] 2 true = ([], false) ∧
      (replay [((100 : Int), (200 : Int))] 2 true).2 = true ∧
      ((replay [((100 : Int), (200 : Int))] 2 true).1.filter isProgressEv) =
        (List.range 2).map (fun r => Ev.progress (r + 1) 2) ∧
      ((replay [((100 : Int), (200 : Int))] 2 true).1.filter isPinEv).getLast? =
        some (Ev.pin 0) ∧
      (replay [((100 : Int), (200 : Int))] 2 true).1.getLast? = some Ev.stopRadio ∧
      REPLAY_REPEATS = 8) :=
  ⟨by decide, c5_replay_contract [((100 : Int), (200 : Int))] 2 (by decide)⟩

/-! ### Claim C2: the classifier against the decision procedure of the spec -/

/-- C2 (counterexample): four concrete pulse trains on which
`detect_protocol` and the procedure stated by the claim disagree:
a train of fewer than 4 pulses (the source guards, the stated procedure
does not); a train whose maximum low equals exactly 5 times the mean low
(the source requires strictly more, the claim asks for at least); a train
with a zero high duration (the source drops it, the stated partition at
600 µs keeps it); and a train with zero low durations (the source excludes
them from the mean, the stated mean over the window keeps them). -/
theorem c2_classifier_counterexample :
    (detect_protocol [(350,10),(1050,10),(350,10)] = "unknown" ∧
      specClassify [(350,10),(1050,10),(350,10)] = "PT2262/EV1527") ∧
    (detect_protocol [(350,7),(1050,7),(350,7),(1050,7),(350,7),(1050,7),(350,7),(1050,7),(350,7),(1050,7),(350,7),(1050,55)] = "PT2262/EV1527" ∧
      specClassify [(350,7),(1050,7),(350,7),(1050,7),(350,7),(1050,7),(350,7),(1050,7),(350,7),(1050,7),(350,7),(1050,55)] = "PT2262") ∧
    (detect_protocol [(0,10),(400,10),(1200,10),(400,10),(1200,10)] = "PT2262/EV1527" ∧
      specClassify [(0,10),(400,10),(1200,10),(400,10),(1200,10)] = "unknown") ∧
    (detect_protocol [(350,0),(1050,0),(350,0),(1050,0),(350,0),(1050,0),(350,2),(1050,2),(350,2),(1050,2),(350,2),(1050,25)] = "PT2262/EV1527" ∧
      specClassify [(350,0),(1050,0),(350,0),(1050,0),(350,0),(1050,0),(350,2),(1050,2),(350,2),(1050,2),(350,2),(1050,25)] = "PT2262") := by
  refine ⟨⟨?_, ?_⟩, ⟨?_, ?_⟩, ⟨?_, ?_⟩, ⟨?_, ?_⟩⟩
  · norm_num [detect_protocol]
  · norm_num [specClassify, specFrameLen, maxOf, List.takeWhile]
    all_goals decide
  · norm_num [detect_protocol, maxOf, framePulseCount]
    all_goals decide
  · norm_num [specClassify, specFrameLen, maxOf, List.takeWhile]
    all_goals decide
  · norm_num [detect_protocol, maxOf, framePulseCount]
    all_goals decide
  · norm_num [specClassify, specFrameLen, maxOf, List.takeWhile]
    all_goals decide
  · norm_num [detect_protocol, maxOf, framePulseCount]
    all_goals decide
  · norm_num [specClassify, specFrameLen, maxOf, List.takeWhile]
    all_goals decide

theorem framePulseCount_eq_specFrameLen (mx : Int) :
    ∀ l : List (Int × Int), framePulseCount l mx = specFrameLen l mx := by
  intro l
  induction l with
  | nil => rfl
  | cons p t ih =>
    simp only [framePulseCount, specFrameLen] at ih ⊢
    by_cases h : 7 * mx < 10 * p.2
    · have hc : decide (10 * p.2 ≤ 7 * mx) = false := by
        simp only [decide_eq_false_iff_not]
        omega
      rw [if_pos h]
      simp [List.takeWhile_cons, hc]
    · have hc : decide (10 * p.2 ≤ 7 * mx) = true := by
        simp only [decide_eq_true_eq]
        omega
      rw [if_neg h]
      simp only [List.takeWhile_cons, hc, if_true, List.length_cons]
      rw [ih]
      split_ifs <;> omega

/-- C2 (amended): restricted to pulse trains whose durations are all
positive, `detect_protocol` implements exactly the stated procedure with
its under-4 guard and with the sync-gap test reading strictly more than 5
times the mean low. -/
theorem c2_classifier_refines_amended_spec (pulses : List (Int × Int))
    (hpos : ∀ p ∈ pulses, 0 < p.1 ∧ 0 < p.2) :
    detect_protocol pulses = specClassifyAmended pulses := by
  by_cases hlen : pulses.length < 4
  · rw [detect_protocol, if_pos (Or.inr hlen), specClassifyAmended, if_pos hlen]
  · have hne : ¬(pulses = [] ∨ pulses.length < 4) := by
      rintro (h1 | h2)
      · rw [h1] at hlen
        simp at hlen
      · exact hlen h2
    simp only [detect_protocol, specClassifyAmended, List.partition_eq_filter_filter]
    rw [if_neg hne, if_neg hlen]
    have e_short :
        List.filter (fun h => decide (0 < h) && decide (h < 600))
            (List.map Prod.fst (List.take 50 pulses)) =
          List.filter (fun h => decide (h < 600))
            (List.map Prod.fst (List.take 50 pulses)) := by
      apply List.filter_congr
      intro x hx
      obtain ⟨p, hp, rfl⟩ := List.mem_map.mp hx
      have hx1 : 0 < p.1 := (hpos p (List.take_subset _ _ hp)).1
      simp [hx1]
    have e_long :
        List.filter (fun h => decide (0 < h) && !decide (h < 600))
            (List.map Prod.fst (List.take 50 pulses)) =
          List.filter (not ∘ fun h => decide (h < 600))
            (List.map Prod.fst (List.take 50 pulses)) := by
      apply List.filter_congr
      intro x hx
      obtain ⟨p, hp, rfl⟩ := List.mem_map.mp hx
      have hx1 : 0 < p.1 := (hpos p (List.take_subset _ _ hp)).1
      simp [hx1]
    have e_lows :
        List.filter (fun l => decide (0 < l))
            (List.map Prod.snd (List.take 50 pulses)) =
          List.map Prod.snd (List.take 50 pulses) := by
      apply List.filter_eq_self.mpr
      intro x hx
      obtain ⟨p, hp, rfl⟩ := List.mem_map.mp hx
      simp [(hpos p (List.take_subset _ _ hp)).2]
    rw [e_short, e_long, e_lows]
    set hs := List.map Prod.fst (List.take 50 pulses) with hhs
    set S := hs.filter (fun h => decide (h < 600)) with hSdef
    set L := hs.filter (not ∘ fun h => decide (h < 600)) with hLdef
    set lows := List.map Prod.snd (List.take 50 pulses) with hlowsdef
    by_cases hcase : S = [] ∨ L = []
    · have hnand : ¬(S ≠ [] ∧ L ≠ []) := by
        intro hc
        rcases hcase with h | h
        · exact hc.1 h
        · exact hc.2 h
      rw [if_neg hnand, if_pos hcase]
    · push_neg at hcase
      have hnor : ¬(S = [] ∨ L = []) := by
        rintro (h | h)
        · exact hcase.1 h
        · exact hcase.2 h
      rw [if_pos hcase, if_neg hnor]
      have hSpos : ∀ x ∈ S, 0 < x := by
        intro x hx
        rw [hSdef] at hx
        have hx2 : x ∈ hs := List.mem_of_mem_filter hx
        rw [hhs] at hx2
        obtain ⟨p, hp, rfl⟩ := List.mem_map.mp hx2
        exact (hpos p (List.take_subset _ _ hp)).1
      have hsum : 0 < ((S.sum : Int) : ℚ) := by
        exact_mod_cast List.sum_pos S hSpos hcase.1
      have hlenS : (0 : ℚ) < (S.length : ℚ) := by
        exact_mod_cast List.length_pos.mpr hcase.1
      have havg : 0 < (S.sum : ℚ) / (S.length : ℚ) := div_pos hsum hlenS
      rw [if_pos havg]
      by_cases hr :
          5/2 < ((L.sum : ℚ) / (L.length : ℚ)) / ((S.sum : ℚ) / (S.length : ℚ)) ∧
            ((L.sum : ℚ) / (L.length : ℚ)) / ((S.sum : ℚ) / (S.length : ℚ)) < 7/2
      · rw [if_pos hr, if_pos hr]
        have hwne : lows ≠ [] := by
          rw [hlowsdef]
          simp only [ne_eq, List.map_eq_nil]
          intro h0
          have h1 : (List.take 50 pulses).length = 0 := by rw [h0]; rfl
          rw [List.length_take] at h1
          simp only [Nat.min_def] at h1
          split_ifs at h1 <;> omega
        rw [if_pos hwne]
        by_cases hsync : (lows.sum : ℚ) / (lows.length : ℚ) * 5 < ((maxOf lows : Int) : ℚ)
        · have hsync2 : 5 * ((lows.sum : ℚ) / (lows.length : ℚ)) < ((maxOf lows : Int) : ℚ) := by
            rw [mul_comm] at hsync
            exact hsync
          rw [if_pos hsync, if_pos hsync2, framePulseCount_eq_specFrameLen]
        · have hsync2 : ¬(5 * ((lows.sum : ℚ) / (lows.length : ℚ)) < ((maxOf lows : Int) : ℚ)) := by
            rw [mul_comm]
            exact hsync
          rw [if_neg hsync, if_neg hsync2]
      · rw [if_neg hr, if_neg hr]

theorem c2_classifier_refines_amended_spec_witness :
    (∀ p ∈ ([(350,10),(1050,10),(350,10),(1050,10)] : List (Int × Int)),
      0 < p.1 ∧ 0 < p.2) ∧
    detect_protocol [(350,10),(1050,10),(350,10),(1050,10)] =
      specClassifyAmended [(350,10),(1050,10),(350,10),(1050,10)] :=
  ⟨by decide,
   c2_classifier_refines_amended_spec [(350,10),(1050,10),(350,10),(1050,10)]
     (by decide)⟩

/-! ### Claim C3: the frame extractor against the procedure of the spec -/

theorem filterMap_ite_sublist {α β : Type} (p : α → Prop) [DecidablePred p]
    (f : α → β) (l : List α) :
    (l.filterMap fun a => if p a then some (f a) else none).Sublist (l.map f) := by
  induction l with
  | nil => exact List.Sublist.refl _
  | cons a t ih =>
    rw [List.filterMap_cons, List.map_cons]
    by_cases h : p a
    · rw [if_pos h]
      exact ih.cons₂ (f a)
    · rw [if_neg h]
      exact ih.cons (f a)

theorem lowsEnum_from_map_fst :
    ∀ (n : Nat) (l : List (Int × Int)),
      ((List.enumFrom n l).filterMap
          (fun ip => if 0 < ip.2.2 then some (ip.2.2, ip.1) else none)).map Prod.fst =
        (l.map Prod.snd).filter (fun v => decide (0 < v)) := by
  intro n l
  induction l generalizing n with
  | nil => rfl
  | cons q t ih =>
    rw [List.enumFrom_cons, List.filterMap_cons, List.map_cons, List.filter_cons]
    by_cases h : 0 < q.2
    · rw [if_pos h, List.map_cons, ih]
      simp [h]
    · rw [if_neg h, ih]
      simp [h]

theorem lowsEnum_map_fst (pulses : List (Int × Int)) :
    (lowsEnum pulses).map Prod.fst =
      (pulses.map Prod.snd).filter (fun v => decide (0 < v)) :=
  lowsEnum_from_map_fst 0 pulses

/-- C3: `extract_single_frame` computes exactly the stated procedure:
unchanged input below 4 pulses or with no positive low duration, else the
slice determined by the sync positions (low duration above 3 times the
mean of the positive lows), with the descending sort of the source
normalised away. -/
theorem c3_extract_frame_refines_spec (pulses : List (Int × Int)) :
    extract_single_frame pulses = spec_extract_frame pulses := by
  by_cases hlen : pulses.length < 4
  · rw [extract_single_frame, if_pos (Or.inr hlen), spec_extract_frame, if_pos hlen]
  · have hne : ¬(pulses = [] ∨ pulses.length < 4) := by
      rintro (h1 | h2)
      · rw [h1] at hlen
        simp at hlen
      · exact hlen h2
    simp only [extract_single_frame, spec_extract_frame]
    rw [if_neg hne, if_neg hlen]
    set E := lowsEnum pulses with hE
    set Sd := List.insertionSort descLe E with hSd
    set lowvals := (pulses.map Prod.snd).filter (fun l => decide (0 < l)) with hlv
    have hperm : Sd.Perm E := List.perm_insertionSort _ _
    have hmapfst : E.map Prod.fst = lowvals := lowsEnum_map_fst pulses
    have hLen : (Sd.length : ℚ) = (lowvals.length : ℚ) := by
      rw [hperm.length_eq, ← hmapfst, List.length_map]
    have hSum : ((Sd.map Prod.fst).sum : ℚ) = (lowvals.sum : ℚ) := by
      rw [(hperm.map Prod.fst).sum_eq, hmapfst]
    by_cases hnil : lowvals = []
    · have hEnil : E = [] := by
        have := hmapfst
        rw [hnil, List.map_eq_nil] at this
        exact this
      have hSdnil : Sd = [] := by rw [hSd, hEnil]; rfl
      rw [if_pos hSdnil, if_pos hnil]
    · have hSdne : Sd ≠ [] := by
        intro h0
        apply hnil
        have hlen0 : E.length = 0 := by
          rw [← hperm.length_eq, h0]
          rfl
        have hE0 : E = [] := List.length_eq_zero.mp hlen0
        rw [← hmapfst, hE0]
        rfl
      rw [if_neg hSdne, if_neg hnil]
      rw [hSum, hLen]
      have hpos_lv : ∀ x ∈ lowvals, 0 < x := by
        intro x hx
        have := List.of_mem_filter (hlv ▸ hx)
        simpa using this
      have hmean_pos : 0 < (lowvals.sum : ℚ) / (lowvals.length : ℚ) := by
        apply div_pos
        · exact_mod_cast List.sum_pos lowvals hpos_lv hnil
        · exact_mod_cast List.length_pos.mpr hnil
      have hsync_eq :
          List.insertionSort (· ≤ ·)
              (Sd.filterMap (fun li =>
                if (lowvals.sum : ℚ) / (lowvals.length : ℚ) * 3 < (li.1 : ℚ) then
                  some li.2 else none)) =
            pulses.enum.filterMap (fun ip =>
              if 3 * ((lowvals.sum : ℚ) / (lowvals.length : ℚ)) < (ip.2.2 : ℚ) then
                some ip.1 else none) := by
        have hstep2 :
            E.filterMap (fun li =>
                if (lowvals.sum : ℚ) / (lowvals.length : ℚ) * 3 < (li.1 : ℚ) then
                  some li.2 else none) =
              pulses.enum.filterMap (fun ip =>
                if 3 * ((lowvals.sum : ℚ) / (lowvals.length : ℚ)) < (ip.2.2 : ℚ) then
                  some ip.1 else none) := by
          rw [hE, lowsEnum, List.filterMap_filterMap]
          apply List.filterMap_congr
          intro ip _
          by_cases h1 : 0 < ip.2.2
          · rw [if_pos h1, Option.some_bind]
            by_cases h2 : 3 * ((lowvals.sum : ℚ) / (lowvals.length : ℚ)) < (ip.2.2 : ℚ)
            · rw [if_pos (by rw [mul_comm]; exact h2), if_pos h2]
            · rw [if_neg (by rw [mul_comm]; exact h2), if_neg h2]
          · rw [if_neg h1, Option.none_bind]
            have h3 : ¬(3 * ((lowvals.sum : ℚ) / (lowvals.length : ℚ)) < (ip.2.2 : ℚ)) := by
              intro hc
              apply h1
              have h4 : (0 : ℚ) < (ip.2.2 : ℚ) := by
                calc (0 : ℚ) < 3 * ((lowvals.sum : ℚ) / (lowvals.length : ℚ)) := by
                      positivity
                  _ < (ip.2.2 : ℚ) := hc
              exact_mod_cast h4
            rw [if_neg h3]
        have hstep3 :
            (Sd.filterMap (fun li =>
                if (lowvals.sum : ℚ) / (lowvals.length : ℚ) * 3 < (li.1 : ℚ) then
                  some li.2 else none)).Perm
              (pulses.enum.filterMap (fun ip =>
                if 3 * ((lowvals.sum : ℚ) / (lowvals.length : ℚ)) < (ip.2.2 : ℚ) then
                  some ip.1 else none)) := by
          rw [← hstep2]
          exact hperm.filterMap _
        have hsorted_spec :
            List.Sorted (· ≤ ·)
              (pulses.enum.filterMap (fun ip =>
                if 3 * ((lowvals.sum : ℚ) / (lowvals.length : ℚ)) < (ip.2.2 : ℚ) then
                  some ip.1 else none)) := by
          have hsub := filterMap_ite_sublist
            (fun ip : Nat × (Int × Int) =>
              3 * ((lowvals.sum : ℚ) / (lowvals.length : ℚ)) < (ip.2.2 : ℚ))
            Prod.fst pulses.enum
          rw [List.enum_map_fst] at hsub
          exact (List.Pairwise.sublist hsub (List.pairwise_lt_range _)).imp le_of_lt
        exact List.eq_of_perm_of_sorted
          ((List.perm_insertionSort _ _).trans hstep3)
          (List.sorted_insertionSort _ _) hsorted_spec
      rw [hsync_eq]
      cases hm : pulses.enum.filterMap (fun ip =>
          if 3 * ((lowvals.sum : ℚ) / (lowvals.length : ℚ)) < (ip.2.2 : ℚ) then
            some ip.1 else none) with
      | nil => rfl
      | cons s0 tail =>
        cases tail with
        | nil => rfl
        | cons s1 rest =>
          show List.take (s1 + 1 - (s0 + 1)) (List.drop (s0 + 1) pulses) =
            List.take (s1 - s0) (List.drop (s0 + 1) pulses)
          congr 1
          omega

end GarageDoor

